import Mathlib

/-!
Verification of the object-listing module of `anytype_rs`.

The development shallowly embeds the Rust code of
`src/api/client/objects.rs` and `src/cli/commands/objects.rs`:

* pure data shapes (`Object`, `Pagination`, `ListObjectsResponse`,
  `CreateObjectRequest`) become Lean structures;
* the HTTP transport becomes an explicit collaborator: a function from
  the request index (respectively the request URL) to an `Except` result;
* the `while` loop of `list_all_objects_with_pagination` becomes a
  fuel-indexed recursion; `fuel` bounds the number of loop iterations we
  are willing to observe, and a result of `none` means the loop has not
  terminated within that many iterations.
-/

namespace AnytypeRs

/-- A JSON value, modelling `serde_json::Value`. -/
inductive Json where
  | null : Json
  | bool (b : Bool) : Json
  | num (n : Int) : Json
  | str (s : String) : Json
  | arr (xs : List Json) : Json
  | obj (fields : List (String × Json)) : Json

/-- Error taxonomy of `crate::error`.  Modelled from the spec: the error
type itself lives outside the excerpt; the spec names `TransportError`,
`DeserializationError`, `ValidationError` and `AuthError`. -/
inductive ApiError where
  | transport (msg : String) : ApiError
  | deserialization (msg : String) : ApiError
  | validation (msg : String) : ApiError
  | auth (msg : String) : ApiError
deriving Repr, DecidableEq

/-- Object information (struct `Object` in `src/api/client/objects.rs`). -/
structure Object where
  id : String
  name : Option String
  space_id : Option String
  object : Option String
  properties : Json

/-- Pagination state of a listing response.  Modelled from the spec:
`crate::types::Pagination` is outside the excerpt; the spec says list
responses carry a pagination object with at least `has_more` (bool) and
`total` (integer), and the aggregator reads exactly those two fields. -/
structure Pagination where
  has_more : Bool
  total : Nat
deriving Repr, DecidableEq

/-- Response for listing objects (struct `ListObjectsResponse`). -/
structure ListObjectsResponse where
  data : List Object
  pagination : Pagination

/-- `usize::MAX` on the 64-bit targets the crate is built for. -/
def usizeMax : Nat := 2 ^ 64 - 1

/-- The transport collaborator seen by the aggregator: the sequence of
responses the server gives to the successive page requests (`server k` is
the response to the `k`-th request issued). -/
def PageServer : Type := Nat → Except ApiError ListObjectsResponse

/-- The `break` condition of the loop in `list_all_objects_with_pagination`:
`all_objects.len() >= limit.unwrap_or(usize::MAX) || !has_more ||
current_offset >= pagination.total`, evaluated after a page was processed. -/
def stopCond (limit : Option Nat) (accLen offset : Nat) (p : Pagination) : Bool :=
  decide (Option.getD limit usizeMax ≤ accLen) || !p.has_more || decide (p.total ≤ offset)

/-- The loop body of `list_all_objects_with_pagination`, as a fuel-indexed
recursion.  State: `k` = `pages_fetched` so far (also the index of the next
request), `offset` = `current_offset`, `acc` = `all_objects`.  Returns the
list of offsets passed to the issued page requests, paired with the loop's
outcome: an error aborts everything, `some (items, pages)` is normal
completion after `pages` requests, `none` means the loop was still running
when the fuel ran out. -/
def listAllAux (server : PageServer) (limit : Option Nat) :
    Nat → Nat → List Object → Nat →
      List Nat × Except ApiError (Option (List Object × Nat))
  | _, _, _, 0 => ([], .ok none)
  | k, offset, acc, fuel + 1 =>
    match server k with
    | .error e => ([offset], .error e)
    | .ok resp =>
      let hasMore := resp.pagination.has_more
      let acc' := if resp.data.isEmpty then acc else acc ++ resp.data
      let offset' := if resp.data.isEmpty then offset else offset + resp.data.length
      if stopCond limit acc'.length offset' { has_more := hasMore, total := resp.pagination.total } then
        ([offset], .ok (some (acc', k + 1)))
      else
        let rest := listAllAux server limit (k + 1) offset' acc' fuel
        (offset :: rest.1, rest.2)

/-- `list_all_objects_with_pagination`: aggregate pages from the server
until a stop condition holds, returning the accumulated objects. -/
def list_all_objects_with_pagination (server : PageServer) (limit : Option Nat)
    (fuel : Nat) : Except ApiError (Option (List Object)) :=
  (listAllAux server limit 0 0 [] fuel).2.map (Option.map Prod.fst)

/-- The value of `pages_fetched` at the end of the aggregation run. -/
def listAllPagesFetched (server : PageServer) (limit : Option Nat)
    (fuel : Nat) : Except ApiError (Option Nat) :=
  (listAllAux server limit 0 0 [] fuel).2.map (Option.map Prod.snd)

/-- The offsets passed to the successive page requests of a run. -/
def requestOffsets (server : PageServer) (limit : Option Nat) (fuel : Nat) :
    List Nat :=
  (listAllAux server limit 0 0 [] fuel).1

/-- The items of the `k`-th page response (empty for an error). -/
def pageData (server : PageServer) (k : Nat) : List Object :=
  match server k with
  | .error _ => []
  | .ok r => r.data

/-- Concatenation of the items of pages `0, …, k-1`, in fetch order. -/
def itemsUpTo (server : PageServer) : Nat → List Object
  | 0 => []
  | k + 1 => itemsUpTo server k ++ pageData server k

/-- Whether the `k`-th page response triggers the loop's stop condition,
given that the pages before it did not (so that the accumulated items at
that point are exactly `itemsUpTo server (k+1)`). -/
def stopAt (server : PageServer) (limit : Option Nat) (k : Nat) : Bool :=
  match server k with
  | .error _ => false
  | .ok r =>
    stopCond limit (itemsUpTo server (k + 1)).length
      (itemsUpTo server (k + 1)).length r.pagination

/-- Whether the `j`-th page request succeeds (transport level). -/
def serverOk (server : PageServer) (j : Nat) : Bool :=
  match server j with
  | .error _ => false
  | .ok _ => true

/-- URL building of `list_objects_with_pagination`: the base path with
`limit` / `offset` appended as query parameters only when present. -/
def buildListObjectsUrl (space_id : String) (limit offset : Option Nat) : String :=
  let url := "/v1/spaces/" ++ space_id ++ "/objects"
  let query_params : List String :=
    (match limit with
      | some l => ["limit=" ++ toString l]
      | none => []) ++
    (match offset with
      | some o => ["offset=" ++ toString o]
      | none => [])
  if query_params.isEmpty then url else url ++ "?" ++ String.intercalate "&" query_params

/-- `list_objects_with_pagination`: one GET against the built URL.  The
transport is the collaborator `get` from URL to response. -/
def list_objects_with_pagination (get : String → Except ApiError ListObjectsResponse)
    (space_id : String) (limit offset : Option Nat) :
    Except ApiError ListObjectsResponse :=
  get (buildListObjectsUrl space_id limit offset)

/-- `list_objects`: the variant without pagination parameters; a single
call with `limit = None`, `offset = None`, returning `response.data`. -/
def list_objects (get : String → Except ApiError ListObjectsResponse)
    (space_id : String) : Except ApiError (List Object) :=
  (list_objects_with_pagination get space_id none none).map ListObjectsResponse.data

/-- Request to create a new object (struct `CreateObjectRequest` in
`src/api/client/objects.rs`). -/
structure CreateObjectRequest where
  type_key : String
  name : Option String
  properties : Option Json

/-- The keys present in the serialized JSON body of a `CreateObjectRequest`:
`name` and `properties` carry `skip_serializing_if = Option::is_none`, so
they appear exactly when the field is `Some`. -/
def createRequestBodyKeys (r : CreateObjectRequest) : List String :=
  ["type_key"] ++
    (match r.name with
      | some _ => ["name"]
      | none => []) ++
    (match r.properties with
      | some _ => ["properties"]
      | none => [])

/-- The properties document the CLI `create` command sends: the parse of the
user-supplied string when present, the empty JSON object otherwise
(`json!({})` in `src/cli/commands/objects.rs`).  The JSON parser
(`serde_json::from_str`) is the collaborator `parse`. -/
def cliCreateProperties (parse : String → Except String Json) :
    Option String → Except String Json
  | some props_str => parse props_str
  | none => .ok (Json.obj [])

/-- The `CreateObjectRequest` the CLI `create` command builds: the parsed
(or defaulted) properties document always wrapped in `Some`. -/
def cliBuildCreateRequest (parse : String → Except String Json)
    (type_key : String) (name : Option String) (properties : Option String) :
    Except String CreateObjectRequest :=
  (cliCreateProperties parse properties).map fun pj =>
    { type_key := type_key, name := name, properties := some pj }

/-- A sample object used in the concrete witness runs. -/
def sampleObj (s : String) : Object :=
  { id := s, name := none, space_id := none, object := none, properties := Json.null }

/-- Two pages of one item each; page 1 reports `total = 2`, so the run
stops there with the total-reached condition. -/
def twoPageServer : PageServer := fun k =>
  if k = 0 then
    .ok { data := [sampleObj "a"], pagination := { has_more := true, total := 3 } }
  else
    .ok { data := [sampleObj "b"], pagination := { has_more := true, total := 2 } }

/-- A misbehaving endpoint: every page is empty yet reports
`has_more = true` and `total = 1`. -/
def emptyPagesServer : PageServer := fun _ =>
  .ok { data := [], pagination := { has_more := true, total := 1 } }

/-- Every page carries two items and reports more to come. -/
def twoItemPageServer : PageServer := fun _ =>
  .ok { data := [sampleObj "a", sampleObj "b"],
        pagination := { has_more := true, total := 10 } }

/-- Two one-item pages that both report `has_more = false` and `total = 2`. -/
def earlyFalseServer : PageServer := fun k =>
  if k = 0 then
    .ok { data := [sampleObj "a"], pagination := { has_more := false, total := 2 } }
  else
    .ok { data := [sampleObj "b"], pagination := { has_more := false, total := 2 } }

/-- Two one-item pages; only the final one reports `has_more = false`. -/
def wellFormedServer : PageServer := fun k =>
  if k = 0 then
    .ok { data := [sampleObj "a"], pagination := { has_more := true, total := 2 } }
  else
    .ok { data := [sampleObj "b"], pagination := { has_more := false, total := 2 } }

/-- Every page claims `has_more = true` while `total` already equals the
item count fetched after the first page. -/
def greedyServer : PageServer := fun _ =>
  .ok { data := [sampleObj "a"], pagination := { has_more := true, total := 1 } }

/-- A successful first page followed by a transport failure on page 2. -/
def failingServer : PageServer := fun k =>
  if k = 0 then
    .ok { data := [sampleObj "a"], pagination := { has_more := true, total := 10 } }
  else
    .error (.transport "connection reset")

/-- An empty first page with `has_more = false`. -/
def emptyFirstPageServer : PageServer := fun _ =>
  .ok { data := [], pagination := { has_more := false, total := 0 } }

/-- A single-page transport for `list_objects`: whatever URL is requested,
answer with one item and `has_more = true`. -/
def singlePageGet : String → Except ApiError ListObjectsResponse := fun _ =>
  .ok { data := [sampleObj "a"], pagination := { has_more := true, total := 10 } }

/-- A JSON parser stub for the CLI witness. -/
def constNullParse : String → Except String Json := fun _ => .ok Json.null

/-- The length of the aggregated result of a run, when it completed. -/
def resultLength : Except ApiError (Option (List Object)) → Option Nat
  | .ok (some l) => some l.length
  | _ => none

lemma pagination_eta (p : Pagination) :
    ({ has_more := p.has_more, total := p.total } : Pagination) = p := rfl

lemma itemsUpTo_succ (server : PageServer) (k : Nat) (resp : ListObjectsResponse)
    (h : server k = .ok resp) :
    itemsUpTo server (k + 1) = itemsUpTo server k ++ resp.data := by
  simp [itemsUpTo, pageData, h]

lemma stopAt_eq_of_ok (server : PageServer) (limit : Option Nat) (k : Nat)
    (resp : ListObjectsResponse) (h : server k = .ok resp) :
    stopAt server limit k
      = stopCond limit (itemsUpTo server (k + 1)).length
          (itemsUpTo server (k + 1)).length resp.pagination := by
  simp [stopAt, h]

/-- One loop iteration on a failing fetch: the error is returned at once. -/
lemma listAllAux_cons_error (server : PageServer) (limit : Option Nat)
    (k fuel : Nat) (e : ApiError) (h : server k = .error e) :
    listAllAux server limit k (itemsUpTo server k).length (itemsUpTo server k) (fuel + 1)
      = ([(itemsUpTo server k).length], .error e) := by
  simp [listAllAux, h]

/-- One loop iteration on a successful fetch, starting from the canonical
state after `k` pages: either the stop condition fires and the loop ends
with the items of the first `k+1` pages, or it recurses in the canonical
state after `k+1` pages. -/
lemma listAllAux_cons_ok (server : PageServer) (limit : Option Nat)
    (k fuel : Nat) (resp : ListObjectsResponse) (h : server k = .ok resp) :
    listAllAux server limit k (itemsUpTo server k).length (itemsUpTo server k) (fuel + 1)
      = if stopAt server limit k then
          ([(itemsUpTo server k).length], .ok (some (itemsUpTo server (k + 1), k + 1)))
        else
          ((itemsUpTo server k).length ::
             (listAllAux server limit (k + 1) (itemsUpTo server (k + 1)).length
               (itemsUpTo server (k + 1)) fuel).1,
           (listAllAux server limit (k + 1) (itemsUpTo server (k + 1)).length
               (itemsUpTo server (k + 1)) fuel).2) := by
  have hsucc := itemsUpTo_succ server k resp h
  have hstop := stopAt_eq_of_ok server limit k resp h
  by_cases hde : resp.data.isEmpty
  · have hdnil : resp.data = [] := by simpa using hde
    simp only [listAllAux, h, hdnil, List.isEmpty_nil, if_pos rfl, pagination_eta]
    have h1 : itemsUpTo server (k + 1) = itemsUpTo server k := by simp [hsucc, hdnil]
    rw [hstop, h1]
    simp
  · have hde' : resp.data.isEmpty = false := by simpa using hde
    simp only [listAllAux, h, hde', if_neg Bool.false_ne_true, pagination_eta]
    have h1 : (itemsUpTo server k ++ resp.data).length
        = (itemsUpTo server (k + 1)).length := by rw [hsucc]
    have h2 : (itemsUpTo server k).length + resp.data.length
        = (itemsUpTo server (k + 1)).length := by simp [hsucc]
    rw [hstop, ← hsucc, h2]

lemma serverOk_ok (server : PageServer) (j : Nat) (h : serverOk server j = true) :
    ∃ r, server j = .ok r := by
  unfold serverOk at h
  cases hs : server j with
  | error e => rw [hs] at h; simp at h
  | ok r => exact ⟨r, rfl⟩

lemma stopAt_true_ok (server : PageServer) (limit : Option Nat) (n : Nat)
    (h : stopAt server limit n = true) : ∃ r, server n = .ok r := by
  unfold stopAt at h
  cases hs : server n with
  | error e => rw [hs] at h; simp at h
  | ok r => exact ⟨r, rfl⟩

/-- If pages `k, …, n-1` fetch successfully without triggering the stop
condition and page `n` triggers it, the loop started in the canonical state
after `k` pages requests exactly pages `k, …, n` (each at the offset equal
to the item count accumulated before it) and completes with the items of
pages `0, …, n` and `pages_fetched = n + 1`. -/
lemma listAllAux_run_stop (server : PageServer) (limit : Option Nat) (n : Nat)
    (hstop : stopAt server limit n = true) :
    ∀ fuel k, k ≤ n → n - k < fuel →
      (∀ j, k ≤ j → j < n → stopAt server limit j = false ∧ serverOk server j = true) →
      listAllAux server limit k (itemsUpTo server k).length (itemsUpTo server k) fuel
        = ((List.range' k (n + 1 - k)).map fun j => (itemsUpTo server j).length,
           .ok (some (itemsUpTo server (n + 1), n + 1))) := by
  intro fuel
  induction fuel with
  | zero => intro k hk hfuel hpre; omega
  | succ fuel ih =>
    intro k hk hfuel hpre
    rcases Nat.eq_or_lt_of_le hk with heq | hlt
    · subst heq
      obtain ⟨resp, hresp⟩ := stopAt_true_ok server limit k hstop
      rw [listAllAux_cons_ok server limit k fuel resp hresp, if_pos hstop]
      have h1 : k + 1 - k = 1 := by omega
      rw [h1]
      simp [List.range']
    · obtain ⟨hns, hok⟩ := hpre k le_rfl hlt
      obtain ⟨resp, hresp⟩ := serverOk_ok server k hok
      rw [listAllAux_cons_ok server limit k fuel resp hresp, if_neg (by simp [hns])]
      have hih := ih (k + 1) hlt (by omega) (fun j hj1 hj2 => hpre j (by omega) hj2)
      rw [hih]
      have h1 : n + 1 - k = (n + 1 - (k + 1)) + 1 := by omega
      rw [h1, List.range'_succ]
      simp

/-- If pages `k, …, n-1` fetch successfully without triggering the stop
condition and the fetch of page `n` fails, the whole aggregation aborts
with that error. -/
lemma listAllAux_run_error (server : PageServer) (limit : Option Nat) (n : Nat)
    (e : ApiError) (herr : server n = .error e) :
    ∀ fuel k, k ≤ n → n - k < fuel →
      (∀ j, k ≤ j → j < n → stopAt server limit j = false ∧ serverOk server j = true) →
      (listAllAux server limit k (itemsUpTo server k).length (itemsUpTo server k) fuel).2
        = .error e := by
  intro fuel
  induction fuel with
  | zero => intro k hk hfuel hpre; omega
  | succ fuel ih =>
    intro k hk hfuel hpre
    rcases Nat.eq_or_lt_of_le hk with heq | hlt
    · subst heq
      rw [listAllAux_cons_error server limit k fuel e herr]
    · obtain ⟨hns, hok⟩ := hpre k le_rfl hlt
      obtain ⟨resp, hresp⟩ := serverOk_ok server k hok
      rw [listAllAux_cons_ok server limit k fuel resp hresp, if_neg (by simp [hns])]
      exact ih (k + 1) hlt (by omega) (fun j hj1 hj2 => hpre j (by omega) hj2)

/-- If no stop condition fires among the next `fuel` pages and all of them
fetch successfully, the loop is still running when the fuel runs out. -/
lemma listAllAux_run_none (server : PageServer) (limit : Option Nat) :
    ∀ fuel k,
      (∀ j, k ≤ j → j < k + fuel → stopAt server limit j = false ∧ serverOk server j = true) →
      (listAllAux server limit k (itemsUpTo server k).length (itemsUpTo server k) fuel).2
        = .ok none := by
  intro fuel
  induction fuel with
  | zero => intro k hpre; simp [listAllAux]
  | succ fuel ih =>
    intro k hpre
    obtain ⟨hns, hok⟩ := hpre k le_rfl (by omega)
    obtain ⟨resp, hresp⟩ := serverOk_ok server k hok
    rw [listAllAux_cons_ok server limit k fuel resp hresp, if_neg (by simp [hns])]
    exact ih (k + 1) (fun j hj1 hj2 => hpre j (by omega) (by omega))

/-- Every offset in the request trace equals the item count accumulated
before that request, whatever the outcome of the run. -/
lemma listAllAux_trace (server : PageServer) (limit : Option Nat) :
    ∀ fuel k i,
      i < ((listAllAux server limit k (itemsUpTo server k).length (itemsUpTo server k) fuel).1).length →
      ((listAllAux server limit k (itemsUpTo server k).length (itemsUpTo server k) fuel).1).getD i 0
        = (itemsUpTo server (k + i)).length := by
  intro fuel
  induction fuel with
  | zero => intro k i hi; simp [listAllAux] at hi
  | succ fuel ih =>
    intro k i hi
    cases hs : server k with
    | error e =>
      rw [listAllAux_cons_error server limit k fuel e hs] at hi ⊢
      simp at hi
      subst hi
      simp
    | ok resp =>
      rw [listAllAux_cons_ok server limit k fuel resp hs] at hi ⊢
      by_cases hstop : stopAt server limit k = true
      · rw [if_pos hstop] at hi ⊢
        simp at hi
        subst hi
        simp
      · rw [if_neg hstop] at hi ⊢
        cases i with
        | zero => simp
        | succ i =>
          simp only [List.length_cons, Nat.add_lt_add_iff_right] at hi
          have hrec := ih (k + 1) i hi
          have hk1 : k + 1 + i = k + (i + 1) := by omega
          simp only [List.getD_cons_succ]
          rw [hrec, hk1]

lemma itemsUpTo_zero (server : PageServer) : itemsUpTo server 0 = [] := rfl

lemma pageData_ok (server : PageServer) (k : Nat) (r : ListObjectsResponse)
    (h : server k = .ok r) : pageData server k = r.data := by
  simp [pageData, h]

lemma listAllAux_zero_eq (server : PageServer) (limit : Option Nat) (fuel : Nat) :
    listAllAux server limit 0 0 [] fuel
      = listAllAux server limit 0 (itemsUpTo server 0).length (itemsUpTo server 0) fuel := rfl

lemma itemsUpTo_le (server : PageServer) (a b : Nat) (h : a ≤ b) :
    ∃ t, itemsUpTo server b = itemsUpTo server a ++ t := by
  induction b, h using Nat.le_induction with
  | base => exact ⟨[], by simp⟩
  | succ b hb ih =>
    obtain ⟨t, ht⟩ := ih
    exact ⟨t ++ pageData server b, by rw [itemsUpTo, ht, List.append_assoc]⟩

lemma itemsUpTo_length_mono (server : PageServer) (a b : Nat) (h : a ≤ b) :
    (itemsUpTo server a).length ≤ (itemsUpTo server b).length := by
  obtain ⟨t, ht⟩ := itemsUpTo_le server a b h
  simp [ht]

lemma itemsUpTo_eq_of_length_le (server : PageServer) (a b : Nat) (h : a ≤ b)
    (hlen : (itemsUpTo server b).length ≤ (itemsUpTo server a).length) :
    itemsUpTo server b = itemsUpTo server a := by
  obtain ⟨t, ht⟩ := itemsUpTo_le server a b h
  rw [ht] at hlen ⊢
  have ht0 : t.length = 0 := by rw [List.length_append] at hlen; omega
  simp [List.eq_nil_of_length_eq_zero ht0]

/-- **C1** — `list_all_objects_with_pagination` keeps requesting pages
while no stop condition holds and stops exactly at the first page after
whose processing the accumulated length reaches the caller limit
(`usize::MAX` when absent), `has_more` is false, or the advanced offset
reaches that page's reported total: if `n` is the first index whose page
triggers a stop condition (and fetches up to `n` succeed), the run issues
exactly the `n + 1` requests `0, …, n` and returns the items of those
pages. -/
theorem list_all_stops_at_first_stop_condition (server : PageServer)
    (limit : Option Nat) (n fuel : Nat)
    (hpre : ∀ j, j < n → stopAt server limit j = false ∧ serverOk server j = true)
    (hstop : stopAt server limit n = true)
    (hfuel : n < fuel) :
    list_all_objects_with_pagination server limit fuel
        = .ok (some (itemsUpTo server (n + 1)))
      ∧ listAllPagesFetched server limit fuel = .ok (some (n + 1)) := by
  have h := listAllAux_run_stop server limit n hstop fuel 0 (by omega) (by omega)
    (fun j _ hj2 => hpre j hj2)
  have h0 : listAllAux server limit 0 0 [] fuel
      = ((List.range' 0 (n + 1 - 0)).map fun j => (itemsUpTo server j).length,
         .ok (some (itemsUpTo server (n + 1), n + 1))) := by
    rw [listAllAux_zero_eq]; exact h
  constructor
  · simp [list_all_objects_with_pagination, h0, Except.map]
  · simp [listAllPagesFetched, h0, Except.map]

/-- **C1 witness** — against `twoPageServer` the first stop condition
fires at page 1 (`offset 2` reaches `total 2`), so the run fetches exactly
two pages and returns their items. -/
theorem list_all_stops_at_first_stop_condition_witness :
    list_all_objects_with_pagination twoPageServer none 3
        = .ok (some (itemsUpTo twoPageServer 2))
      ∧ listAllPagesFetched twoPageServer none 3 = .ok (some 2) :=
  list_all_stops_at_first_stop_condition twoPageServer none 1 3
    (by decide) (by decide) (by decide)

lemma emptyPages_itemsUpTo (k : Nat) : itemsUpTo emptyPagesServer k = [] := by
  induction k with
  | zero => rfl
  | succ k ih => rw [itemsUpTo, ih]; rfl

lemma emptyPages_noStop (j : Nat) : stopAt emptyPagesServer none j = false := by
  have h : emptyPagesServer j
      = .ok { data := [], pagination := { has_more := true, total := 1 } } := rfl
  rw [stopAt_eq_of_ok emptyPagesServer none j _ h, emptyPages_itemsUpTo]
  decide

lemma emptyPages_aux (fuel : Nat) : ∀ k,
    listAllAux emptyPagesServer none k (itemsUpTo emptyPagesServer k).length
      (itemsUpTo emptyPagesServer k) fuel = (List.replicate fuel 0, .ok none) := by
  induction fuel with
  | zero => intro k; simp [listAllAux]
  | succ fuel ih =>
    intro k
    have h : emptyPagesServer k
        = .ok { data := [], pagination := { has_more := true, total := 1 } } := rfl
    rw [listAllAux_cons_ok emptyPagesServer none k fuel _ h,
        if_neg (by simp [emptyPages_noStop k]), ih (k + 1)]
    simp [emptyPages_itemsUpTo, List.replicate_succ]

/-- **C2** — the runaway-loop guard fails on a misbehaving endpoint: when
every page is empty but reports `has_more = true` and `total = 1`, no stop
condition ever fires, so the loop (run with any amount of fuel) is still
running when the fuel is exhausted — the aggregation never terminates —
even though, as the second conjunct shows, the offset indeed stays at `0`
for every request. -/
theorem empty_pages_with_has_more_never_terminate (fuel : Nat) :
    list_all_objects_with_pagination emptyPagesServer none fuel = .ok none
      ∧ requestOffsets emptyPagesServer none fuel = List.replicate fuel 0 := by
  have h := emptyPages_aux fuel 0
  rw [← listAllAux_zero_eq] at h
  constructor
  · simp [list_all_objects_with_pagination, h, Except.map]
  · rw [requestOffsets, h]

/-- **C5** — the `total` guard terminates the loop even against a server
that always claims `has_more = true`: if the first page's reported total
already equals the advanced offset (the items fetched by that page), the
run stops after that single page. -/
theorem total_reached_terminates_despite_has_more (server : PageServer)
    (limit : Option Nat) (resp : ListObjectsResponse) (fuel : Nat)
    (hmore : ∀ k r, server k = .ok r → r.pagination.has_more = true)
    (h0 : server 0 = .ok resp)
    (htot : resp.pagination.total = resp.data.length)
    (hfuel : 0 < fuel) :
    list_all_objects_with_pagination server limit fuel = .ok (some resp.data)
      ∧ listAllPagesFetched server limit fuel = .ok (some 1) := by
  have hitems : itemsUpTo server 1 = resp.data := by
    rw [itemsUpTo, itemsUpTo_zero, pageData_ok server 0 resp h0, List.nil_append]
  have hstop : stopAt server limit 0 = true := by
    rw [stopAt_eq_of_ok server limit 0 resp h0]
    simp [stopCond, htot, hitems]
  have h := listAllAux_run_stop server limit 0 hstop fuel 0 le_rfl (by omega)
    (fun j hj1 hj2 => by omega)
  have h0' : listAllAux server limit 0 0 [] fuel
      = ((List.range' 0 (0 + 1 - 0)).map fun j => (itemsUpTo server j).length,
         .ok (some (itemsUpTo server (0 + 1), 0 + 1))) := by
    rw [listAllAux_zero_eq]; exact h
  rw [hitems] at h0'
  constructor
  · simp [list_all_objects_with_pagination, h0', Except.map]
  · simp [listAllPagesFetched, h0', Except.map]

/-- **C5 witness** — `greedyServer` reports `has_more = true` on every
page while `total = 1` equals the item count after the first page; the run
terminates after one page. -/
theorem total_reached_terminates_despite_has_more_witness :
    list_all_objects_with_pagination greedyServer none 1 = .ok (some [sampleObj "a"])
      ∧ listAllPagesFetched greedyServer none 1 = .ok (some 1) :=
  total_reached_terminates_despite_has_more greedyServer none
    { data := [sampleObj "a"], pagination := { has_more := true, total := 1 } } 1
    (fun k r h => by rw [← Except.ok.inj h]) rfl rfl (by decide)

/-- **C6** — a transport failure on any page aborts the whole aggregation:
if pages `0, …, n-1` succeed without triggering a stop condition and the
fetch of page `n` fails, the run returns exactly that error, so the items
of the earlier pages are discarded and no retry happens. -/
theorem transport_error_discards_partial_results (server : PageServer)
    (limit : Option Nat) (n fuel : Nat) (e : ApiError)
    (hpre : ∀ j, j < n → stopAt server limit j = false ∧ serverOk server j = true)
    (herr : server n = .error e)
    (hfuel : n < fuel) :
    list_all_objects_with_pagination server limit fuel = .error e
      ∧ listAllPagesFetched server limit fuel = .error e := by
  have h := listAllAux_run_error server limit n e herr fuel 0 (by omega) (by omega)
    (fun j _ hj2 => hpre j hj2)
  rw [← listAllAux_zero_eq] at h
  constructor
  · simp [list_all_objects_with_pagination, h, Except.map]
  · simp [listAllPagesFetched, h, Except.map]

/-- **C6 witness** — against `failingServer` (a good first page, then a
transport failure on page 2) the aggregation returns the error and not the
one-page partial result. -/
theorem transport_error_discards_partial_results_witness :
    list_all_objects_with_pagination failingServer none 3
        = .error (.transport "connection reset")
      ∧ listAllPagesFetched failingServer none 3
        = .error (.transport "connection reset") :=
  transport_error_discards_partial_results failingServer none 1 3
    (.transport "connection reset") (by decide) rfl (by decide)

/-- **C7** — an empty first page with `has_more = false` yields an empty
result with exactly one page fetched. -/
theorem empty_first_page_single_fetch (server : PageServer) (limit : Option Nat)
    (resp : ListObjectsResponse) (fuel : Nat)
    (h0 : server 0 = .ok resp)
    (hdata : resp.data = [])
    (hmore : resp.pagination.has_more = false)
    (hfuel : 0 < fuel) :
    list_all_objects_with_pagination server limit fuel = .ok (some [])
      ∧ listAllPagesFetched server limit fuel = .ok (some 1) := by
  have hitems : itemsUpTo server 1 = [] := by
    rw [itemsUpTo, itemsUpTo_zero, pageData_ok server 0 resp h0, hdata, List.nil_append]
  have hstop : stopAt server limit 0 = true := by
    rw [stopAt_eq_of_ok server limit 0 resp h0]
    simp [stopCond, hmore]
  have h := listAllAux_run_stop server limit 0 hstop fuel 0 le_rfl (by omega)
    (fun j hj1 hj2 => by omega)
  have h0' : listAllAux server limit 0 0 [] fuel
      = ((List.range' 0 (0 + 1 - 0)).map fun j => (itemsUpTo server j).length,
         .ok (some (itemsUpTo server (0 + 1), 0 + 1))) := by
    rw [listAllAux_zero_eq]; exact h
  rw [hitems] at h0'
  constructor
  · simp [list_all_objects_with_pagination, h0', Except.map]
  · simp [listAllPagesFetched, h0', Except.map]

/-- **C7 witness** — the empty first page of `emptyFirstPageServer`
(`data = []`, `has_more = false`) gives an empty result after exactly one
request. -/
theorem empty_first_page_single_fetch_witness :
    list_all_objects_with_pagination emptyFirstPageServer none 5 = .ok (some [])
      ∧ listAllPagesFetched emptyFirstPageServer none 5 = .ok (some 1) :=
  empty_first_page_single_fetch emptyFirstPageServer none
    { data := [], pagination := { has_more := false, total := 0 } } 5
    rfl rfl rfl (by decide)

/-- **C8** — across a run, the offset passed to the `i`-th page request
equals the count of items accumulated before it (the items of pages
`0, …, i-1`): the first request uses offset `0`, the offset advances by the
length of each page (so it is unchanged for an empty page), and the
requested offsets are monotonically increasing. -/
theorem request_offsets_track_accumulated_items (server : PageServer)
    (limit : Option Nat) (fuel i : Nat)
    (hi : i < (requestOffsets server limit fuel).length) :
    (requestOffsets server limit fuel).getD i 0 = (itemsUpTo server i).length
      ∧ (requestOffsets server limit fuel).getD 0 0 = 0
      ∧ (itemsUpTo server (i + 1)).length
          = (itemsUpTo server i).length + (pageData server i).length
      ∧ ∀ j, j < (requestOffsets server limit fuel).length → i ≤ j →
          (requestOffsets server limit fuel).getD i 0
            ≤ (requestOffsets server limit fuel).getD j 0 := by
  have htrace : ∀ i', i' < (requestOffsets server limit fuel).length →
      (requestOffsets server limit fuel).getD i' 0 = (itemsUpTo server i').length := by
    intro i' hi'
    rw [requestOffsets, listAllAux_zero_eq] at hi' ⊢
    have h := listAllAux_trace server limit fuel 0 i' hi'
    rw [h, Nat.zero_add]
  refine ⟨htrace i hi, ?_, ?_, ?_⟩
  · rw [htrace 0 (lt_of_le_of_lt (Nat.zero_le i) hi), itemsUpTo_zero]
    rfl
  · rw [itemsUpTo, List.length_append]
  · intro j hj hij
    rw [htrace i hi, htrace j hj]
    exact itemsUpTo_length_mono server i j hij

/-- **C8 witness** — against `twoPageServer` the run issues requests at
offsets `0` and `1`; request 1's offset equals the single item accumulated
from page 0 and the offsets increase. -/
theorem request_offsets_track_accumulated_items_witness :
    (requestOffsets twoPageServer none 3).getD 1 0
        = (itemsUpTo twoPageServer 1).length
      ∧ (requestOffsets twoPageServer none 3).getD 0 0 = 0
      ∧ (itemsUpTo twoPageServer 2).length
          = (itemsUpTo twoPageServer 1).length + (pageData twoPageServer 1).length
      ∧ (requestOffsets twoPageServer none 3).getD 0 0
          ≤ (requestOffsets twoPageServer none 3).getD 1 0 := by
  obtain ⟨h1, h2, h3, _⟩ :=
    request_offsets_track_accumulated_items twoPageServer none 3 1 (by decide)
  obtain ⟨_, _, _, h4⟩ :=
    request_offsets_track_accumulated_items twoPageServer none 3 0 (by decide)
  exact ⟨h1, h2, h3, h4 1 (by decide) (by decide)⟩

/-- **C3 counterexample** — with `limit = Some 1` against a first page
carrying two items, the aggregator returns both items of that page, not
the first one item in page order: the accumulated list is never truncated
to the caller's limit. -/
theorem limited_run_not_first_n_items :
    list_all_objects_with_pagination twoItemPageServer (some 1) 3
      ≠ .ok (some (List.take 1 (itemsUpTo twoItemPageServer 1))) := by
  intro h
  exact absurd (congrArg resultLength h) (by decide)

/-- **C3 amended** — with a caller-supplied limit `N`, once the items
accumulated from successfully fetched pages reach `N` the aggregator
requests no further page: it completes after some `m ≤ k + 1` requests
(where page `k` is the first whose processing brings the accumulated count
to `N` or beyond) and returns the whole concatenation of the `m` fetched
pages — possibly more than `N` items, since the result is not truncated. -/
theorem limit_reached_requests_no_more_pages (server : PageServer)
    (N fuel k : Nat)
    (hok : ∀ j, j ≤ k → serverOk server j = true)
    (hN : N ≤ (itemsUpTo server (k + 1)).length)
    (hfuel : k < fuel) :
    ∃ m, m ≤ k + 1
      ∧ list_all_objects_with_pagination server (some N) fuel
          = .ok (some (itemsUpTo server m))
      ∧ listAllPagesFetched server (some N) fuel = .ok (some m) := by
  have hkstop : stopAt server (some N) k = true := by
    obtain ⟨r, hr⟩ := serverOk_ok server k (hok k le_rfl)
    rw [stopAt_eq_of_ok server (some N) k r hr]
    have hd : decide (Option.getD (some N) usizeMax
        ≤ (itemsUpTo server (k + 1)).length) = true := by
      simpa [Option.getD] using hN
    simp [stopCond, hd]
    exact Or.inl (Or.inl hN)
  have hex : ∃ j, stopAt server (some N) j = true := ⟨k, hkstop⟩
  have hnk : Nat.find hex ≤ k := Nat.find_min' hex hkstop
  have hnstop : stopAt server (some N) (Nat.find hex) = true := Nat.find_spec hex
  have hpre : ∀ j, j < Nat.find hex →
      stopAt server (some N) j = false ∧ serverOk server j = true := by
    intro j hj
    exact ⟨Bool.eq_false_iff.mpr (Nat.find_min hex hj), hok j (by omega)⟩
  have h := listAllAux_run_stop server (some N) (Nat.find hex) hnstop fuel 0
    (by omega) (by omega) (fun j _ hj2 => hpre j hj2)
  rw [← listAllAux_zero_eq] at h
  refine ⟨Nat.find hex + 1, by omega, ?_, ?_⟩
  · simp [list_all_objects_with_pagination, h, Except.map]
  · simp [listAllPagesFetched, h, Except.map]

/-- **C3 amended witness** — with limit `1` against pages of two items,
the run stops after the single page that overshoots the limit. -/
theorem limit_reached_requests_no_more_pages_witness :
    list_all_objects_with_pagination twoItemPageServer (some 1) 2
        = .ok (some (itemsUpTo twoItemPageServer 1))
      ∧ listAllPagesFetched twoItemPageServer (some 1) 2 = .ok (some 1) := by
  obtain ⟨m, hm, h1, h2⟩ := limit_reached_requests_no_more_pages twoItemPageServer 1 2 0
    (by decide) (by decide) (by decide)
  have hpf : listAllPagesFetched twoItemPageServer (some 1) 2 = .ok (some 1) := by rfl
  have hm1 : m = 1 := by
    have h := h2.symm.trans hpf
    exact Option.some.inj (Except.ok.inj h)
  subst hm1
  exact ⟨h1, h2⟩

/-- **C4 counterexample** — a two-page sequence whose concatenated item
count (2) equals the reported total (2) and whose final page reports
`has_more = false` is NOT always returned in full: `earlyFalseServer`'s
first page also reports `has_more = false`, so the run stops after one
page and returns one item instead of the two-item concatenation. -/
theorem full_traversal_not_concatenation :
    list_all_objects_with_pagination earlyFalseServer none 3
      ≠ .ok (some (itemsUpTo earlyFalseServer 2)) := by
  intro h
  exact absurd (congrArg resultLength h) (by decide)

/-- **C4 amended** — for a page sequence of `n + 1` pages that all report
the same total `T` (a `usize`, so `T ≤ usize::MAX`), whose concatenated
item count equals `T`, whose final page reports `has_more = false`, and
whose earlier pages all report `has_more = true`, the aggregator called
with no limit returns exactly the concatenation of the pages' items in
fetch order, each item once, with no duplicates introduced. -/
theorem full_traversal_returns_concatenation (server : PageServer)
    (n T fuel : Nat)
    (hok : ∀ j, j ≤ n → serverOk server j = true)
    (htot : ∀ j r, j ≤ n → server j = .ok r → r.pagination.total = T)
    (hTmax : T ≤ usizeMax)
    (hlen : (itemsUpTo server (n + 1)).length = T)
    (hlast : ∀ r, server n = .ok r → r.pagination.has_more = false)
    (hmid : ∀ j r, j < n → server j = .ok r → r.pagination.has_more = true)
    (hfuel : n < fuel) :
    list_all_objects_with_pagination server none fuel
      = .ok (some (itemsUpTo server (n + 1))) := by
  have hnstop : stopAt server none n = true := by
    obtain ⟨r, hr⟩ := serverOk_ok server n (hok n le_rfl)
    rw [stopAt_eq_of_ok server none n r hr]
    simp [stopCond, hlast r hr]
  have hex : ∃ j, stopAt server none j = true := ⟨n, hnstop⟩
  have hmn : Nat.find hex ≤ n := Nat.find_min' hex hnstop
  have hmstop : stopAt server none (Nat.find hex) = true := Nat.find_spec hex
  have hpre : ∀ j, j < Nat.find hex →
      stopAt server none j = false ∧ serverOk server j = true := by
    intro j hj
    exact ⟨Bool.eq_false_iff.mpr (Nat.find_min hex hj), hok j (by omega)⟩
  have h := listAllAux_run_stop server none (Nat.find hex) hmstop fuel 0
    (by omega) (by omega) (fun j _ hj2 => hpre j hj2)
  rw [← listAllAux_zero_eq] at h
  have hitems : itemsUpTo server (Nat.find hex + 1) = itemsUpTo server (n + 1) := by
    rcases Nat.eq_or_lt_of_le hmn with heq | hlt
    · rw [heq]
    · obtain ⟨r, hr⟩ := serverOk_ok server (Nat.find hex) (hok _ (by omega))
      have hmore := hmid (Nat.find hex) r hlt hr
      have htotm := htot (Nat.find hex) r (by omega) hr
      have hstopC := hmstop
      rw [stopAt_eq_of_ok server none (Nat.find hex) r hr] at hstopC
      simp [stopCond, hmore, htotm, Option.getD] at hstopC
      have hLle : (itemsUpTo server (Nat.find hex + 1)).length ≤ T := by
        have := itemsUpTo_length_mono server (Nat.find hex + 1) (n + 1) (by omega)
        omega
      have hTL : T ≤ (itemsUpTo server (Nat.find hex + 1)).length := by
        rcases hstopC with h1 | h1 <;> omega
      exact (itemsUpTo_eq_of_length_le server (Nat.find hex + 1) (n + 1)
        (by omega) (by omega)).symm
  rw [hitems] at h
  simp [list_all_objects_with_pagination, h, Except.map]

/-- **C4 amended witness** — `wellFormedServer`'s two pages (one item
each, `total = 2`, `has_more` true then false) are returned exactly as
their concatenation. -/
theorem full_traversal_returns_concatenation_witness :
    list_all_objects_with_pagination wellFormedServer none 3
      = .ok (some (itemsUpTo wellFormedServer 2)) :=
  full_traversal_returns_concatenation wellFormedServer 1 2 3
    (by decide)
    (by
      intro j r hj h
      interval_cases j
      · rw [← Except.ok.inj h]
      · rw [← Except.ok.inj h])
    (by decide)
    (by decide)
    (by intro r h; rw [← Except.ok.inj h])
    (by
      intro j r hj h
      interval_cases j
      rw [← Except.ok.inj h])
    (by decide)

/-- **C9** — `list_objects` passes `limit = None`, `offset = None`, so the
URL it requests is the bare listing path with no query parameters, and it
returns exactly the single page's `data` array for whatever response the
transport gives to that one request — in particular remaining pages are
never fetched even when the response reports `has_more = true` (the
conclusion does not depend on `resp.pagination`). -/
theorem list_objects_single_request (get : String → Except ApiError ListObjectsResponse)
    (space_id : String) (resp : ListObjectsResponse)
    (h : get ("/v1/spaces/" ++ space_id ++ "/objects") = .ok resp) :
    buildListObjectsUrl space_id none none = "/v1/spaces/" ++ space_id ++ "/objects"
      ∧ list_objects get space_id = .ok resp.data := by
  have hurl : buildListObjectsUrl space_id none none
      = "/v1/spaces/" ++ space_id ++ "/objects" := by
    simp [buildListObjectsUrl]
  exact ⟨hurl, by simp [list_objects, list_objects_with_pagination, hurl, h, Except.map]⟩

/-- **C9 witness** — `singlePageGet` answers every URL with a one-item
page reporting `has_more = true`; `list_objects` still returns just that
page's data after its single parameterless request. -/
theorem list_objects_single_request_witness :
    buildListObjectsUrl "sp" none none = "/v1/spaces/" ++ "sp" ++ "/objects"
      ∧ list_objects singlePageGet "sp" = .ok [sampleObj "a"] :=
  list_objects_single_request singlePageGet "sp"
    { data := [sampleObj "a"], pagination := { has_more := true, total := 10 } } rfl

/-- **C10** — the CLI `create` command always includes a properties
document: with no user-supplied properties string the built request's
`properties` field is `Some` of the empty JSON object, and whenever the
request is built successfully its `properties` field is `Some`, so the
serialized body always contains a `properties` key. -/
theorem cli_create_always_sends_properties (parse : String → Except String Json)
    (tk : String) (nm : Option String) :
    cliBuildCreateRequest parse tk nm none
        = .ok { type_key := tk, name := nm, properties := some (Json.obj []) }
      ∧ ∀ props r, cliBuildCreateRequest parse tk nm props = .ok r →
          r.properties.isSome = true ∧ "properties" ∈ createRequestBodyKeys r := by
  constructor
  · rfl
  · intro props r h
    rw [cliBuildCreateRequest] at h
    cases hc : cliCreateProperties parse props with
    | error e => rw [hc] at h; exact absurd h (by simp [Except.map])
    | ok j =>
      rw [hc] at h
      simp only [Except.map] at h
      rw [← Except.ok.inj h]
      constructor
      · rfl
      · simp [createRequestBodyKeys]

/-- **C10 witness** — with no properties string the CLI builds a request
whose `properties` is `Some` of the empty object, and that request's
serialized body carries the `properties` key. -/
theorem cli_create_always_sends_properties_witness :
    cliBuildCreateRequest constNullParse "note" none none
        = .ok { type_key := "note", name := none, properties := some (Json.obj []) }
      ∧ "properties" ∈ createRequestBodyKeys
          { type_key := "note", name := none, properties := some (Json.obj []) } :=
  ⟨(cli_create_always_sends_properties constNullParse "note" none).1,
   ((cli_create_always_sends_properties constNullParse "note" none).2 none
      { type_key := "note", name := none, properties := some (Json.obj []) }
      (cli_create_always_sends_properties constNullParse "note" none).1).2⟩

end AnytypeRs
